import Mathlib

/-!
Verification development for the repolens issue-synchronization scripts.

The Python sources are shallowly embedded as executable Lean definitions:

* `parse_issues_file` embeds the line-state-machine parser of
  `.github/scripts/check_and_create_issues.py` (identical in
  `create_issues_robust.py`).  The parser consumes the list of raw lines as
  produced by Python `readlines` (each line keeps its trailing newline).
* `get_existing_issues`, `reconcile`, `create_issue`, `runSynchronizer` embed
  the remote-index builder, the missing/present diff and the creation loop of
  `check_and_create_issues.py` (`main`, lines 196-242).
* `create_issue_robust` embeds the label-fallback creator of
  `create_issues_robust.py` (`create_issue`, lines 106-189).
* `close_duplicate_issues` embeds `close_duplicates.py` (lines 9-35).

External collaborator calls (`gh` subprocesses) are passed in as function
parameters returning `Except stderr stdout`; theorems quantify over them.
Python string primitives (`strip`, `replace`, `split`, `lower`, substring
test, the URL regular expression of `re.search`) are reimplemented on
`List Char`.
-/

/-- Whitespace predicate of Python `str.strip` (ASCII whitespace). -/
def isPySpace (c : Char) : Bool :=
  c = ' ' || c = '\t' || c = '\n' || c = '\r' || c = '\x0b' || c = '\x0c'

/-- Python `str.strip`: drop whitespace from both ends. -/
def stripChars (cs : List Char) : List Char :=
  ((cs.dropWhile isPySpace).reverse.dropWhile isPySpace).reverse

/-- Python `str.strip` on `String`. -/
def pyStrip (s : String) : String :=
  String.mk (stripChars s.data)

/-- Python substring test `pat in cs`. -/
def hasSubL (pat : List Char) : List Char → Bool
  | [] => pat.isPrefixOf []
  | c :: cs => pat.isPrefixOf (c :: cs) || hasSubL pat cs

/-- Python `str.lower` (ASCII case folding, enough for the error texts). -/
def pyLower (s : String) : List Char :=
  s.data.map Char.toLower

/-- Fuel-driven core of Python `str.replace` for a non-empty pattern
`p :: ps`: left-to-right, non-overlapping replacement of every occurrence.
Each step consumes at least one character, so any fuel of at least the list
length computes the full replacement; the structural fuel keeps the
definition kernel-reducible. -/
def replaceAllFuel (p : Char) (ps : List Char) (repl : List Char) :
    Nat → List Char → List Char
  | 0, cs => cs
  | _ + 1, [] => []
  | fuel + 1, c :: cs =>
    if (p :: ps).isPrefixOf (c :: cs) then
      repl ++ replaceAllFuel p ps repl fuel (cs.drop ps.length)
    else
      c :: replaceAllFuel p ps repl fuel cs

/-- Python `str.replace pat repl` for a non-empty pattern `p :: ps`. -/
def replaceAll (p : Char) (ps : List Char) (repl : List Char) (cs : List Char) :
    List Char :=
  replaceAllFuel p ps repl cs.length cs

/-- Python `str.replace` with the pattern given as a string literal. -/
def pyReplace (cs : List Char) (pat : String) (repl : List Char) : List Char :=
  match pat.data with
  | [] => cs
  | p :: ps => replaceAll p ps repl cs

/-- Python `str.split sep` for a single-character separator
(`"".split sep = [""]`, empty fields kept). -/
def splitOnChar (sep : Char) : List Char → List (List Char)
  | [] => [[]]
  | c :: cs =>
    if c = sep then
      [] :: splitOnChar sep cs
    else
      match splitOnChar sep cs with
      | t :: ts => (c :: t) :: ts
      | [] => [[c]]

/-- Value of a non-empty digit run, as computed by Python `int`. -/
def digitsToNat (cs : List Char) : Nat :=
  cs.foldl (fun n c => 10 * n + (c.toNat - 48)) 0

/-- The backtick character (decoration stripped from label tokens). -/
def backtickChar : Char := Char.ofNat 96

/-- The single-quote character (decoration stripped from label tokens). -/
def quoteChar : Char := Char.ofNat 39

/-- `l.strip().replace(backtick, "").replace(quote, "")` applied after the
whitespace strip: decoration removal of the label parser. -/
def stripDecor (cs : List Char) : List Char :=
  replaceAll quoteChar [] [] (replaceAll backtickChar [] [] cs)

/-! URL extraction: `re.search(r'https://github\.com/[^/]+/[^/]+/issues/\d+', s)`
from `create_issue`.  The pattern has no feasible backtracking (each greedy
piece is followed by a character it cannot match), so maximal-run matching is
exact. -/

/-- Literal head of the URL pattern. -/
def urlLit : List Char := "https://github.com/".data

/-- Literal middle of the URL pattern. -/
def issuesLit : List Char := "/issues/".data

/-- Match the URL pattern anchored at the start of `cs`; return the matched
characters. -/
def matchUrlFrom (cs : List Char) : Option (List Char) :=
  if urlLit.isPrefixOf cs then
    let rest0 := cs.drop urlLit.length
    let seg1 := rest0.takeWhile (fun c => c ≠ '/')
    if seg1 = [] then none
    else
      match rest0.drop seg1.length with
      | '/' :: rest2 =>
        let seg2 := rest2.takeWhile (fun c => c ≠ '/')
        if seg2 = [] then none
        else
          let rest3 := rest2.drop seg2.length
          if issuesLit.isPrefixOf rest3 then
            let digs := (rest3.drop issuesLit.length).takeWhile Char.isDigit
            if digs = [] then none
            else some (urlLit ++ seg1 ++ ['/'] ++ seg2 ++ issuesLit ++ digs)
          else none
      | _ => none
  else none

/-- `re.search`: try the anchored match at every start position, leftmost wins. -/
def searchUrl : List Char → Option (List Char)
  | [] => none
  | c :: cs =>
    match matchUrlFrom (c :: cs) with
    | some m => some m
    | none => searchUrl cs

/-- `url_match.group(0)` of `re.search(..., s)`, when the pattern occurs. -/
def extractUrl (s : String) : Option String :=
  (searchUrl s.data).map String.mk

/-! The record data model (`current_issue` dictionary of the parser). -/

/-- Section pointer values of the parser (`current_section`). -/
inductive SectionKind where
  | description
  | objectives
  | acceptance
deriving DecidableEq, Repr

/-- One parsed issue record (the dictionary built at a header line). -/
structure IssueRecord where
  number : Nat
  title : String
  labels : List String
  description : String
  objectives : String
  acceptance : String
deriving DecidableEq, Repr

/-- Parser state: emitted records, open record, section pointer, `in_issue`. -/
structure ParserState where
  issues : List IssueRecord
  current : Option IssueRecord
  currentSection : Option SectionKind
  inIssue : Bool
deriving DecidableEq, Repr

/-- `"**Labels:**"` marker. -/
def labelsMark : List Char := "**Labels:**".data

/-- `"**Description:**"` marker. -/
def descMark : List Char := "**Description:**".data

/-- `"**Objectifs:**"` marker. -/
def objMark : List Char := "**Objectifs:**".data

/-- `"**Acceptance Criteria:**"` marker. -/
def accMark : List Char := "**Acceptance Criteria:**".data

/-- `"---"` terminator. -/
def termMark : List Char := "---".data

/-- `"### Issue #"` header literal. -/
def headerLit : List Char := "### Issue #".data

/-- `re.match(r'### Issue #(\d+): (.+), line.strip())`: the argument is the
already-stripped line.  Greedy `(\d+)` is the maximal digit run (it is
followed by a colon), and `(.+)$` is the non-empty remainder; the remainder is
then stripped for the title, exactly as `match.group(2).strip()`. -/
def matchHeaderS (stripped : List Char) : Option (Nat × String) :=
  if headerLit.isPrefixOf stripped then
    let rest := stripped.drop headerLit.length
    let digits := rest.takeWhile Char.isDigit
    if digits = [] then none
    else
      let afterD := rest.drop digits.length
      if [':', ' '].isPrefixOf afterD then
        let titleRaw := afterD.drop 2
        if titleRaw = [] then none
        else some (digitsToNat digits, String.mk (stripChars titleRaw))
      else none
  else none

/-- Labels of a `**Labels:**` line: remove the marker from the raw line, strip,
split on commas, keep the tokens that are non-blank after stripping, and map
each kept token to its stripped, decoration-free form (lines 52-58 of
`check_and_create_issues.py`). -/
def parseLabels (line : String) : List String :=
  let cs := stripChars (pyReplace line.data "**Labels:**" [])
  ((splitOnChar ',' cs).filter (fun t => !(stripChars t).isEmpty)).map
    (fun t => String.mk (stripDecor (stripChars t)))

/-- Append the raw line (trailing newline included) to the buffer of the
current section. -/
def appendSection (sec : SectionKind) (line : String) (r : IssueRecord) : IssueRecord :=
  match sec with
  | SectionKind.description => { r with description := r.description ++ line }
  | SectionKind.objectives => { r with objectives := r.objectives ++ line }
  | SectionKind.acceptance => { r with acceptance := r.acceptance ++ line }

/-- One iteration of the parser loop (lines 23-92 of
`check_and_create_issues.py`), in the exact order of the source checks:
header, `in_issue` guard, labels line, the three section markers, terminator,
then the non-blank content append. -/
def parseStep (st : ParserState) (line : String) : ParserState :=
  let stripped := stripChars line.data
  match matchHeaderS stripped with
  | some (n, t) =>
    ⟨st.issues ++ st.current.toList, some ⟨n, t, [], "", "", ""⟩, none, true⟩
  | none =>
    if st.inIssue = false then st
    else if labelsMark.isPrefixOf stripped then
      { st with current := st.current.map (fun r => { r with labels := parseLabels line }) }
    else if stripped = descMark then
      { st with currentSection := some SectionKind.description }
    else if stripped = objMark then
      { st with currentSection := some SectionKind.objectives }
    else if stripped = accMark then
      { st with currentSection := some SectionKind.acceptance }
    else if stripped = termMark then
      { st with inIssue := false, currentSection := none }
    else
      match st.currentSection with
      | some sec =>
        if stripped ≠ [] then
          { st with current := st.current.map (appendSection sec line) }
        else st
      | none => st

/-- Sort key order of the final `sorted(issues, key=lambda x: x['number'])`. -/
def recLE (a b : IssueRecord) : Prop := a.number ≤ b.number

instance : DecidableRel recLE := fun a b => Nat.decLe a.number b.number

instance : IsTotal IssueRecord recLE := ⟨fun a b => Nat.le_total a.number b.number⟩

instance : IsTrans IssueRecord recLE := ⟨fun _ _ _ => Nat.le_trans⟩

/-- Final whitespace strip of the three section fields (lines 99-102). -/
def cleanRecord (r : IssueRecord) : IssueRecord :=
  { r with
    description := String.mk (stripChars r.description.data),
    objectives := String.mk (stripChars r.objectives.data),
    acceptance := String.mk (stripChars r.acceptance.data) }

/-- `parse_issues_file` over the `readlines` output: fold the line state
machine, flush the still-open record, strip the section fields, and return the
records sorted by `number` (Python `sorted` is a stable sort, modeled by
insertion sort). -/
def parse_issues_file (lines : List String) : List IssueRecord :=
  let st := lines.foldl parseStep ⟨[], none, none, false⟩
  List.insertionSort recLE ((st.issues ++ st.current.toList).map cleanRecord)

/-- Number of lines whose stripped form matches the issue header pattern. -/
def countHeaders (lines : List String) : Nat :=
  lines.countP (fun l => (matchHeaderS (stripChars l.data)).isSome)

/-! Remote index builder and reconciliation (`get_existing_issues` and the
missing/present loop of `main`, lines 106-121 and 200-207). -/

/-- `get_existing_issues`: the listing collaborator either returns the
`(title, number)` pairs or fails; any failure is swallowed and the empty
index is returned (`except Exception: return ???` becomes the error branch). -/
def get_existing_issues (listing : Except String (List (String × Nat))) :
    List (String × Nat) :=
  match listing with
  | Except.ok l => l
  | Except.error _ => []

/-- Key membership of the title dictionary (`title in existing_issues`);
the dictionary comprehension keys the entries by exact title string. -/
def indexHasTitle (idx : List (String × Nat)) (t : String) : Bool :=
  idx.any (fun p => p.1 == t)

/-- Dictionary lookup `existing_issues[title]`; a later entry of the listing
overwrites an earlier one with the same title (dict comprehension). -/
def indexGet (idx : List (String × Nat)) (t : String) : Option Nat :=
  (idx.reverse.find? (fun p => p.1 == t)).map Prod.snd

/-- The reconciliation loop of `main` (lines 200-207): records whose title is
a key of the index are present (paired with the remote number), the others are
missing, both in document order. -/
def reconcile (records : List IssueRecord) (idx : List (String × Nat)) :
    List (IssueRecord × Nat) × List IssueRecord :=
  (records.filterMap (fun r => (indexGet idx r.title).map (fun n => (r, n))),
   records.filter (fun r => !(indexHasTitle idx r.title)))

/-! The synchronizer of `check_and_create_issues.py` (lines 123-167 and
228-242). -/

/-- Body composition (lines 133-141): non-empty sections only, each under its
heading, joined by blank lines, Description then Objectifs then Acceptance. -/
def buildBody (r : IssueRecord) : String :=
  String.intercalate "\n\n"
    ((if r.description ≠ "" then ["## Description\n\n" ++ r.description] else []) ++
     (if r.objectives ≠ "" then ["## Objectifs\n\n" ++ r.objectives] else []) ++
     (if r.acceptance ≠ "" then ["## Acceptance Criteria\n\n" ++ r.acceptance] else []))

/-- Python truthiness of the `url` value tested by `if url:` in the loop:
`None` and the empty string are falsy. -/
def pyTruthyStr : Option String → Bool
  | none => false
  | some s => s ≠ ""

/-- Collaborator call shape of `gh issue create`: title, body and the
(non-empty) labels passed on the command line; the result is either the
standard output or, on `CalledProcessError`, the standard error. -/
def GhCreate : Type := String → String → List String → Except String String

/-- `create_issue` of `check_and_create_issues.py` (lines 123-167): one
creation call; on success return the URL found in the output, or the whole
stripped output when no URL is found; on failure log and return `None`. -/
def create_issue (gh : GhCreate) (r : IssueRecord) : Option String :=
  match gh r.title (buildBody r) (r.labels.filter (fun l => l ≠ "")) with
  | Except.ok output =>
    let out := pyStrip output
    some ((extractUrl out).getD out)
  | Except.error _ => none

/-- Aggregate report and trace of one synchronizer run: counters and URL list
of `main`, plus the trace of creation calls (record and outcome) and the
number of `time.sleep` calls. -/
structure SyncResult where
  created : Nat
  failed : Nat
  urls : List String
  attempts : List (IssueRecord × Option String)
  sleeps : Nat
deriving DecidableEq, Repr

/-- One iteration of the creation loop (lines 228-242): call `create_issue`,
count created or failed, and sleep unless the record equals the last element
of the batch. -/
def syncStep (gh : GhCreate) (lastRec : Option IssueRecord)
    (acc : SyncResult) (r : IssueRecord) : SyncResult :=
  let url := create_issue gh r
  let acc1 : SyncResult :=
    if pyTruthyStr url then
      ⟨acc.created + 1, acc.failed, acc.urls ++ [url.getD ""],
       acc.attempts ++ [(r, url)], acc.sleeps⟩
    else
      ⟨acc.created, acc.failed + 1, acc.urls,
       acc.attempts ++ [(r, url)], acc.sleeps⟩
  if lastRec ≠ some r then
    ⟨acc1.created, acc1.failed, acc1.urls, acc1.attempts, acc1.sleeps + 1⟩
  else acc1

/-- The creation loop of `main` over the missing records. -/
def runSynchronizer (gh : GhCreate) (missing : List IssueRecord) : SyncResult :=
  missing.foldl (syncStep gh missing.getLast?) ⟨0, 0, [], [], 0⟩

/-! The robust creator of `create_issues_robust.py` (lines 106-189). -/

/-- Collaborator of the robust creator: `gh issue create` and
`gh issue edit ... --add-label`. -/
structure Collab where
  create : String → String → List String → Except String String
  addLabel : String → String → Except String Unit

deriving instance DecidableEq for Except

/-- Result of one robust creation: the returned value, the trace of creation
calls (title, body, labels argument) and the trace of label-attach calls
(url, label, collaborator outcome — the outcome is always discarded). -/
structure RobustResult where
  result : Option String
  createCalls : List (String × String × List String)
  attachCalls : List (String × String × Except String Unit)
deriving DecidableEq, Repr

/-- Lowercased error text contains both `"label"` and `"not found"`
(line 156 of `create_issues_robust.py`). -/
def labelNotFoundErr (e : String) : Bool :=
  hasSubL "label".data (pyLower e) && hasSubL "not found".data (pyLower e)

/-- `create_issue` of `create_issues_robust.py` (lines 106-189, `dry_run`
false): first creation with the non-empty labels; on a label-not-found error
retry once with no labels, and if the retry output contains a URL, attach each
non-empty label individually, ignoring attach errors; any other failure
returns `None`. -/
def create_issue_robust (c : Collab) (r : IssueRecord) : RobustResult :=
  let body := buildBody r
  let labs := r.labels.filter (fun l => l ≠ "")
  match c.create r.title body labs with
  | Except.ok output =>
    let out := pyStrip output
    ⟨some ((extractUrl out).getD out), [(r.title, body, labs)], []⟩
  | Except.error err =>
    if labelNotFoundErr err then
      match c.create r.title body [] with
      | Except.ok output2 =>
        let out2 := pyStrip output2
        match extractUrl out2 with
        | some u =>
          ⟨some u, [(r.title, body, labs), (r.title, body, [])],
           labs.map (fun l => (u, l, c.addLabel u l))⟩
        | none =>
          ⟨some out2, [(r.title, body, labs), (r.title, body, [])], []⟩
      | Except.error _ =>
        ⟨none, [(r.title, body, labs), (r.title, body, [])], []⟩
    else
      ⟨none, [(r.title, body, labs)], []⟩

/-! The range closer of `close_duplicates.py` (lines 9-35). -/

/-- Tally and trace of `close_duplicate_issues`. -/
structure CloseResult where
  closed : Nat
  failed : Nat
  attempts : List Nat
deriving DecidableEq, Repr

/-- One iteration of the close loop: close the id, count it as closed on
success and as failed on `CalledProcessError`. -/
def closeStep (closeCall : Nat → Except String Unit) (acc : CloseResult) (n : Nat) :
    CloseResult :=
  match closeCall n with
  | Except.ok _ => ⟨acc.closed + 1, acc.failed, acc.attempts ++ [n]⟩
  | Except.error _ => ⟨acc.closed, acc.failed + 1, acc.attempts ++ [n]⟩

/-- `close_duplicate_issues`: for each id of `range(start, end+1)` in order,
call the close collaborator; count the id as closed on success and as failed
on error, never aborting. -/
def close_duplicate_issues (closeCall : Nat → Except String Unit)
    (startNum endNum : Nat) : CloseResult :=
  (List.range' startNum (endNum + 1 - startNum)).foldl (closeStep closeCall) ⟨0, 0, []⟩

/-! Concrete fixtures used by the claim theorems, their witnesses and
counterexamples. -/

/-- Record `A` of the three-record isolation scenario. -/
def recA : IssueRecord := ⟨1, "A", [], "", "", ""⟩

/-- Record `B` of the three-record isolation scenario (its creation fails). -/
def recB : IssueRecord := ⟨2, "B", [], "", "", ""⟩

/-- Record `C` of the three-record isolation scenario. -/
def recC : IssueRecord := ⟨3, "C", [], "", "", ""⟩

/-- Collaborator behaviour failing exactly on the title `B`. -/
def ghC1 : GhCreate := fun t _ _ =>
  if t = "B" then Except.error "boom"
  else if t = "A" then Except.ok "https://github.com/o/r/issues/1"
  else Except.ok "https://github.com/o/r/issues/3"

/-- Record with one label, used for the robust-creation scenarios. -/
def rC2 : IssueRecord := ⟨5, "Robust", ["bug"], "", "", ""⟩

/-- Collaborator whose creation call rejects labels with a label-not-found
error, succeeds without labels printing the issue URL, and fails every
label-attach call. -/
def collabC2 : Collab where
  create := fun _ _ labs =>
    if labs = [] then Except.ok "https://github.com/o/r/issues/7\n"
    else Except.error "could not add label: Label not found"
  addLabel := fun _ _ => Except.error "attach failure, swallowed"

/-- Collaborator whose creation call rejects labels with a label-not-found
error and succeeds without labels, but prints no URL. -/
def collabC2x : Collab where
  create := fun _ _ labs =>
    if labs = [] then Except.ok "done"
    else Except.error "label not found"
  addLabel := fun _ _ => Except.ok ()

/-- The two-block document of the end-to-end scenario. -/
def docC3 : List String := [
  "# Catalog\n",
  "\n",
  "### Issue #1: Add retries\n",
  "\n",
  "**Labels:** `enhancement`\n",
  "\n",
  "**Description:**\n",
  "\n",
  "Add retry logic.\n",
  "\n",
  "---\n",
  "\n",
  "### Issue #2: Add metrics\n",
  "\n",
  "**Labels:** `enhancement`\n",
  "\n",
  "**Description:**\n",
  "\n",
  "Expose metrics.\n",
  "\n",
  "---\n"
]

/-- Parsed record of block 1 of the end-to-end scenario. -/
def recRetries : IssueRecord :=
  ⟨1, "Add retries", ["enhancement"], "Add retry logic.", "", ""⟩

/-- Parsed record of block 2 of the end-to-end scenario. -/
def recMetrics : IssueRecord :=
  ⟨2, "Add metrics", ["enhancement"], "Expose metrics.", "", ""⟩

/-- Remote index of the end-to-end scenario. -/
def idxC3 : List (String × Nat) := [("Add retries", 42)]

/-- Collaborator of the end-to-end scenario: creating `Add metrics`
succeeds with the URL of remote issue 43. -/
def ghC3 : GhCreate := fun t _ _ =>
  if t = "Add metrics" then Except.ok "https://github.com/o/r/issues/43\n"
  else Except.error "unexpected call"

/-- Record titled exactly `Fix login`. -/
def recFix : IssueRecord := ⟨1, "Fix login", [], "", "", ""⟩

/-- Record titled `Fix login` followed by a trailing space. -/
def recFixSp : IssueRecord := ⟨2, "Fix login ", [], "", "", ""⟩

/-- Document whose labels line has a token consisting of a lone backtick. -/
def docC5 : List String := [
  "### Issue #1: T\n",
  "**Labels:** `\n"
]

/-- Document with a section body of raw text `a`, blank line, `b`. -/
def docC6 : List String := [
  "### Issue #1: T\n",
  "**Description:**\n",
  "a\n",
  "\n",
  "b\n",
  "---\n"
]

/-- Parser state with an open record and the description section selected. -/
def stC6 : ParserState :=
  ⟨[], some ⟨1, "T", [], "", "", ""⟩, some SectionKind.description, true⟩

/-- Document whose single block lacks the trailing terminator. -/
def docC7 : List String := [
  "### Issue #1: Unterminated\n",
  "**Description:**\n",
  "body\n"
]

/-- Close collaborator failing on every odd id. -/
def closeEx : Nat → Except String Unit := fun n =>
  if n % 2 = 0 then Except.ok () else Except.error "close failure"

/-! Helper lemmas about the synchronizer loop. -/

/-- One synchronizer step records exactly one attempt and increments exactly
one of the two counters, whatever the sleep branch does. -/
lemma syncStep_spec (gh : GhCreate) (lastRec : Option IssueRecord)
    (acc : SyncResult) (r : IssueRecord) :
    (syncStep gh lastRec acc r).attempts = acc.attempts ++ [(r, create_issue gh r)] ∧
    (syncStep gh lastRec acc r).created + (syncStep gh lastRec acc r).failed =
      acc.created + acc.failed + 1 := by
  unfold syncStep
  rcases hb : pyTruthyStr (create_issue gh r) <;>
    simp only [hb, Bool.false_eq_true, if_false, if_true] <;>
    split <;> simp <;> omega

/-- The creation loop attempts every record of the batch, in order, and each
iteration settles exactly one counter. -/
lemma sync_foldl (gh : GhCreate) (lastRec : Option IssueRecord)
    (l : List IssueRecord) :
    ∀ acc : SyncResult,
      (l.foldl (syncStep gh lastRec) acc).attempts =
        acc.attempts ++ l.map (fun r => (r, create_issue gh r)) ∧
      (l.foldl (syncStep gh lastRec) acc).created +
        (l.foldl (syncStep gh lastRec) acc).failed =
        acc.created + acc.failed + l.length := by
  induction l with
  | nil => intro acc; simp
  | cons r t ih =>
    intro acc
    have hstep := syncStep_spec gh lastRec acc r
    have htail := ih (syncStep gh lastRec acc r)
    rw [List.foldl_cons]
    constructor
    · rw [htail.1, hstep.1]
      simp
    · have h1 := htail.2
      have h2 := hstep.2
      simp only [List.length_cons]
      omega

/-! Helper lemmas about the range closer loop. -/

/-- One close step records exactly one attempt and increments exactly one of
the two counters. -/
lemma closeStep_spec (closeCall : Nat → Except String Unit)
    (acc : CloseResult) (n : Nat) :
    (closeStep closeCall acc n).attempts = acc.attempts ++ [n] ∧
    (closeStep closeCall acc n).closed + (closeStep closeCall acc n).failed =
      acc.closed + acc.failed + 1 := by
  unfold closeStep
  rcases hc : closeCall n <;> simp <;> omega

/-- The close loop attempts every id of the list, in order, and each iteration
settles exactly one counter. -/
lemma close_foldl (closeCall : Nat → Except String Unit) (l : List Nat) :
    ∀ acc : CloseResult,
      (l.foldl (closeStep closeCall) acc).attempts = acc.attempts ++ l ∧
      (l.foldl (closeStep closeCall) acc).closed +
        (l.foldl (closeStep closeCall) acc).failed =
        acc.closed + acc.failed + l.length := by
  induction l with
  | nil => intro acc; simp
  | cons n t ih =>
    intro acc
    have hstep := closeStep_spec closeCall acc n
    have htail := ih (closeStep closeCall acc n)
    rw [List.foldl_cons]
    constructor
    · rw [htail.1, hstep.1]
      simp
    · have h1 := htail.2
      have h2 := hstep.2
      simp only [List.length_cons]
      omega

/-! Helper lemmas about `stripChars` and the header match, used for the
parser invariants. -/

/-- The first element surviving `dropWhile p` falsifies `p`. -/
lemma head?_dropWhile_false (p : Char → Bool) :
    ∀ (l : List Char) (c : Char), (l.dropWhile p).head? = some c → p c = false := by
  intro l
  induction l with
  | nil => intro c h; simp [List.dropWhile] at h
  | cons x xs ih =>
    intro c h
    rw [List.dropWhile_cons] at h
    split at h
    · exact ih c h
    · simp at h
      subst h
      simp_all

/-- The last element of a stripped string is not whitespace. -/
lemma stripChars_getLast?_false (cs : List Char) (c : Char)
    (h : (stripChars cs).getLast? = some c) : isPySpace c = false := by
  unfold stripChars at h
  rw [List.getLast?_reverse] at h
  exact head?_dropWhile_false isPySpace _ c h

/-- A string stripping to nothing is all whitespace. -/
lemma stripChars_nil_all (cs : List Char) (h : stripChars cs = []) :
    ∀ c ∈ cs, isPySpace c = true := by
  unfold stripChars at h
  rw [List.reverse_eq_nil_iff] at h
  have h2 : ∀ c ∈ (cs.dropWhile isPySpace).reverse, isPySpace c = true :=
    List.dropWhile_eq_nil_iff.mp h
  intro c hc
  rcases List.mem_append.mp
      ((List.takeWhile_append_dropWhile isPySpace cs) ▸ hc) with h3 | h3
  · exact List.mem_takeWhile_imp h3
  · exact h2 c (List.mem_reverse.mpr h3)

/-- A header match on a stripped line always produces a non-empty title:
the matched remainder after the colon is non-empty and, being a suffix of the
stripped line, does not end in whitespace, so stripping it cannot erase it. -/
lemma matchHeaderS_title_ne (cs : List Char) (n : Nat) (t : String)
    (h : matchHeaderS (stripChars cs) = some (n, t)) : t ≠ "" := by
  simp only [matchHeaderS] at h
  split at h
  case isFalse => simp at h
  case isTrue hpre =>
    split at h
    case isTrue => simp at h
    case isFalse hdig =>
      split at h
      case isFalse => simp at h
      case isTrue hcolon =>
        split at h
        case isTrue => simp at h
        case isFalse htitle =>
          simp only [Option.some.injEq, Prod.mk.injEq] at h
          obtain ⟨-, ht⟩ := h
          subst ht
          intro hcontra
          set s := stripChars cs with hs
          set titleRaw := ((s.drop headerLit.length).drop
              ((s.drop headerLit.length).takeWhile Char.isDigit).length).drop 2 with htr
          have hdata : stripChars titleRaw = [] := by
            have := congrArg String.data hcontra
            simpa using this
          have hsuffix : titleRaw <:+ s := by
            rw [htr, List.drop_drop, List.drop_drop]
            exact List.drop_suffix _ s
          obtain ⟨pre, hpre2⟩ := hsuffix
          have hlast : s.getLast? = titleRaw.getLast? := by
            rw [← hpre2]
            exact List.getLast?_append_of_ne_nil pre htitle
          rcases hgl : titleRaw.getLast? with _ | c
          · exact htitle (List.getLast?_eq_none_iff.mp hgl)
          · have hmem : c ∈ titleRaw := List.mem_of_mem_getLast? hgl
            have hspace : isPySpace c = true := stripChars_nil_all titleRaw hdata c hmem
            have hnospace : isPySpace c = false :=
              stripChars_getLast?_false cs c (hs ▸ (hlast.trans hgl))
            simp [hspace] at hnospace

/-- A non-header line never changes the emitted list, and changes the open
record at most field-wise, never its title. -/
lemma parseStep_none_pres (st : ParserState) (line : String)
    (h : matchHeaderS (stripChars line.data) = none) :
    (parseStep st line).issues = st.issues ∧
    (parseStep st line).current.map IssueRecord.title =
      st.current.map IssueRecord.title := by
  simp only [parseStep, h]
  split
  next => exact ⟨rfl, rfl⟩
  next =>
    split
    next => cases st.current <;> simp
    next =>
      split
      next => exact ⟨rfl, rfl⟩
      next =>
        split
        next => exact ⟨rfl, rfl⟩
        next =>
          split
          next => exact ⟨rfl, rfl⟩
          next =>
            split
            next => exact ⟨rfl, rfl⟩
            next =>
              split
              next sec heq =>
                split
                next => cases st.current <;> cases sec <;> simp [appendSection]
                next => exact ⟨rfl, rfl⟩
              next heq => exact ⟨rfl, rfl⟩

/-- Each parser step grows the record count (emitted plus open) by one exactly
when the line is a header. -/
lemma parseStep_count (st : ParserState) (line : String) :
    (parseStep st line).issues.length + (parseStep st line).current.toList.length =
      st.issues.length + st.current.toList.length +
        (if (matchHeaderS (stripChars line.data)).isSome then 1 else 0) := by
  rcases hm : matchHeaderS (stripChars line.data) with _ | ⟨n, t⟩
  · have hp := parseStep_none_pres st line hm
    have hc : (parseStep st line).current.toList.length = st.current.toList.length := by
      cases hcur : st.current <;> cases hcur2 : (parseStep st line).current <;>
        rw [hcur, hcur2] at hp <;> simp_all
    rw [hp.1, hc]
    simp
  · simp only [parseStep, hm]
    cases st.current <;> simp

/-- Folding the parser over the lines grows the record count by exactly the
number of header lines. -/
lemma parse_foldl_count (lines : List String) :
    ∀ st : ParserState,
      (lines.foldl parseStep st).issues.length +
        (lines.foldl parseStep st).current.toList.length =
        st.issues.length + st.current.toList.length + countHeaders lines := by
  induction lines with
  | nil => intro st; simp [countHeaders]
  | cons l t ih =>
    intro st
    rw [List.foldl_cons]
    have h1 := ih (parseStep st l)
    have h2 := parseStep_count st l
    rw [h1]
    unfold countHeaders
    rw [List.countP_cons]
    unfold countHeaders at *
    rcases hm : (matchHeaderS (stripChars l.data)).isSome
    · simp only [hm] at h2
      simp [hm, h2]
      try omega
    · simp only [hm] at h2
      simp [hm, h2]
      try omega

/-- One parser step preserves non-emptiness of every stored title. -/
lemma parseStep_titles (st : ParserState) (line : String)
    (hst : ∀ r ∈ st.issues ++ st.current.toList, r.title ≠ "") :
    ∀ r ∈ (parseStep st line).issues ++ (parseStep st line).current.toList,
      r.title ≠ "" := by
  rcases hm : matchHeaderS (stripChars line.data) with _ | ⟨n, t⟩
  · have hp := parseStep_none_pres st line hm
    intro r hr
    rcases List.mem_append.mp hr with h | h
    · exact hst r (List.mem_append.mpr (Or.inl (hp.1 ▸ h)))
    · have hsome : (parseStep st line).current = some r := by
        cases hpc : (parseStep st line).current <;> rw [hpc] at h <;> simp_all
      rw [hsome] at hp
      cases hcur : st.current with
      | none => rw [hcur] at hp; simp at hp
      | some r0 =>
        rw [hcur] at hp
        have hp2 := hp.2
        simp at hp2
        have ht : r.title = r0.title := hp2
        rw [ht]
        exact hst r0 (by rw [hcur]; simp)
  · intro r hr
    simp only [parseStep, hm, List.append_assoc] at hr
    rcases List.mem_append.mp hr with h | h
    · exact hst r (List.mem_append.mpr (Or.inl h))
    · rcases List.mem_append.mp h with h2 | h2
      · exact hst r (List.mem_append.mpr (Or.inr h2))
      · have h2e : r = ⟨n, t, [], "", "", ""⟩ := by
          simpa using h2
        rw [h2e]
        exact matchHeaderS_title_ne line.data n t hm

/-- Folding the parser preserves non-emptiness of every stored title. -/
lemma parse_foldl_titles (lines : List String) :
    ∀ st : ParserState,
      (∀ r ∈ st.issues ++ st.current.toList, r.title ≠ "") →
      ∀ r ∈ (lines.foldl parseStep st).issues ++
          (lines.foldl parseStep st).current.toList, r.title ≠ "" := by
  induction lines with
  | nil => intro st h; exact h
  | cons l t ih =>
    intro st h
    rw [List.foldl_cons]
    exact ih (parseStep st l) (parseStep_titles st l h)

/-- The parser output length equals the number of header lines. -/
lemma parse_length (lines : List String) :
    (parse_issues_file lines).length = countHeaders lines := by
  simp only [parse_issues_file]
  rw [(List.perm_insertionSort recLE _).length_eq, List.length_map,
    List.length_append]
  have := parse_foldl_count lines ⟨[], none, none, false⟩
  simpa using this

/-- Every parsed record has a non-empty title. -/
lemma parse_titles (lines : List String) :
    ∀ r ∈ parse_issues_file lines, r.title ≠ "" := by
  intro r hr
  simp only [parse_issues_file] at hr
  have hr2 := (List.perm_insertionSort recLE _).mem_iff.mp hr
  obtain ⟨r0, hr0, hr0e⟩ := List.mem_map.mp hr2
  have h0 : r0.title ≠ "" :=
    parse_foldl_titles lines ⟨[], none, none, false⟩ (by simp) r0 hr0
  rw [← hr0e]
  exact h0

/-- The parser output is sorted by ascending number. -/
lemma parse_sorted (lines : List String) :
    List.Pairwise (fun a b : IssueRecord => a.number ≤ b.number)
      (parse_issues_file lines) := by
  have h := List.sorted_insertionSort recLE
    (((lines.foldl parseStep ⟨[], none, none, false⟩).issues ++
      (lines.foldl parseStep ⟨[], none, none, false⟩).current.toList).map cleanRecord)
  exact h

/-! Helper lemmas about decoration stripping and URL extraction. -/

/-- Replacement by the empty string only removes characters. -/
lemma replaceAllFuel_subset (p : Char) (ps : List Char) (a : Char) :
    ∀ (fuel : Nat) (cs : List Char), a ∈ replaceAllFuel p ps [] fuel cs → a ∈ cs := by
  intro fuel
  induction fuel with
  | zero =>
    intro cs hmem
    simpa [replaceAllFuel] using hmem
  | succ m ih =>
    intro cs hmem
    rcases cs with _ | ⟨c, cs2⟩
    · simp [replaceAllFuel] at hmem
    · rw [replaceAllFuel] at hmem
      split at hmem
      · simp only [List.nil_append] at hmem
        exact List.mem_cons_of_mem _ (List.drop_subset _ _ (ih _ hmem))
      · rcases List.mem_cons.mp hmem with h | h
        · exact h ▸ List.mem_cons_self _ _
        · exact List.mem_cons_of_mem _ (ih _ h)

/-- Replacement by the empty string only removes characters (wrapper). -/
lemma replaceAll_subset (p : Char) (ps : List Char) (a : Char) (cs : List Char)
    (hmem : a ∈ replaceAll p ps [] cs) : a ∈ cs :=
  replaceAllFuel_subset p ps a cs.length cs hmem

/-- Removing every occurrence of a single character removes that character,
given enough fuel. -/
lemma not_mem_replaceFuel_single (c : Char) :
    ∀ (fuel : Nat) (cs : List Char), cs.length ≤ fuel →
      c ∉ replaceAllFuel c [] [] fuel cs := by
  intro fuel
  induction fuel with
  | zero =>
    intro cs hlen
    rcases cs with _ | ⟨x, xs⟩
    · simp [replaceAllFuel]
    · simp at hlen
  | succ m ih =>
    intro cs hlen
    rcases cs with _ | ⟨x, xs⟩
    · simp [replaceAllFuel]
    · rw [replaceAllFuel]
      split
      next =>
        simp only [List.drop_zero, List.nil_append]
        exact ih xs (by simp at hlen; omega)
      next hne =>
        intro hmem
        rcases List.mem_cons.mp hmem with h | h
        · simp [h] at hne
        · exact ih xs (by simp at hlen; omega) h

/-- Removing every occurrence of a single character removes that character. -/
lemma not_mem_replace_single (c : Char) (cs : List Char) :
    c ∉ replaceAll c [] [] cs :=
  not_mem_replaceFuel_single c cs.length cs le_rfl

/-- Decoration-stripped tokens contain neither backticks nor quotes. -/
lemma stripDecor_no_decor (cs : List Char) :
    backtickChar ∉ stripDecor cs ∧ quoteChar ∉ stripDecor cs := by
  unfold stripDecor
  constructor
  · intro hmem
    exact not_mem_replace_single backtickChar _
      (replaceAll_subset quoteChar [] backtickChar _ hmem)
  · exact not_mem_replace_single quoteChar _

/-- An anchored URL match is a non-empty character list. -/
lemma matchUrlFrom_ne_nil (cs m : List Char) (h : matchUrlFrom cs = some m) :
    m ≠ [] := by
  simp only [matchUrlFrom] at h
  split at h
  case isFalse => simp at h
  case isTrue =>
    split at h
    case isTrue => simp at h
    case isFalse =>
      split at h
      case h_2 => simp at h
      case h_1 rest2 heq =>
        split at h
        case isTrue => simp at h
        case isFalse =>
          split at h
          case isFalse => simp at h
          case isTrue =>
            split at h
            case isTrue => simp at h
            case isFalse =>
              simp only [Option.some.injEq] at h
              rw [← h]
              simp [urlLit]

/-- A found URL is a non-empty character list. -/
lemma searchUrl_ne_nil (cs m : List Char) (h : searchUrl cs = some m) : m ≠ [] := by
  induction cs with
  | nil => simp [searchUrl] at h
  | cons c cs2 ih =>
    rw [searchUrl] at h
    split at h
    next m2 hm2 =>
      simp only [Option.some.injEq] at h
      exact h ▸ matchUrlFrom_ne_nil _ _ hm2
    next => exact ih h

/-- An extracted URL is a non-empty string. -/
lemma extractUrl_ne_empty (s u : String) (h : extractUrl s = some u) : u ≠ "" := by
  simp only [extractUrl, Option.map_eq_some'] at h
  obtain ⟨m, hm, hmk⟩ := h
  intro hcontra
  have : m = [] := by
    have := congrArg String.data (hmk.trans hcontra)
    simpa using this
  exact searchUrl_ne_nil _ _ hm this

/-! Claim theorems. -/

/-- C9: for every collaborator behaviour and every integer range with
start ≤ end, the Range Closer attempts to close each id from start to end
exactly once, in ascending order, continuing past any per-item failure, and
returns a tally with closed + failed = end - start + 1. -/
theorem claim_C9_range_closer (closeCall : Nat → Except String Unit)
    (startNum endNum : Nat) (h : startNum ≤ endNum) :
    (close_duplicate_issues closeCall startNum endNum).attempts =
      List.range' startNum (endNum - startNum + 1) ∧
    (close_duplicate_issues closeCall startNum endNum).closed +
      (close_duplicate_issues closeCall startNum endNum).failed =
      endNum - startNum + 1 := by
  have heq : endNum + 1 - startNum = endNum - startNum + 1 := by omega
  unfold close_duplicate_issues
  rw [heq]
  have hf := close_foldl closeCall (List.range' startNum (endNum - startNum + 1)) ⟨0, 0, []⟩
  constructor
  · rw [hf.1]
    simp
  · rw [hf.2]
    simp

/-- C9 witness: the close loop over the default range 56..110 of the script,
with a collaborator failing on every odd id. -/
theorem claim_C9_witness :
    56 ≤ 110 ∧
    ((close_duplicate_issues closeEx 56 110).attempts =
       List.range' 56 (110 - 56 + 1) ∧
     (close_duplicate_issues closeEx 56 110).closed +
       (close_duplicate_issues closeEx 56 110).failed = 110 - 56 + 1) :=
  ⟨by decide, claim_C9_range_closer closeEx 56 110 (by decide)⟩

/-- C10: when the remote listing call fails, the Remote Index Builder swallows
the error and returns the empty index; every record is then classified as
missing and the Synchronizer attempts to create all of them. -/
theorem claim_C10_listing_failure (e : String) (records : List IssueRecord)
    (gh : GhCreate) :
    get_existing_issues (Except.error e) = [] ∧
    (reconcile records (get_existing_issues (Except.error e))).2 = records ∧
    (runSynchronizer gh
        (reconcile records (get_existing_issues (Except.error e))).2).attempts.map
      Prod.fst = records := by
  have h1 : get_existing_issues (Except.error e) = ([] : List (String × Nat)) := rfl
  have h2 : (reconcile records ([] : List (String × Nat))).2 = records := by
    simp [reconcile, indexHasTitle]
  refine ⟨h1, by rw [h1]; exact h2, ?_⟩
  rw [h1, h2]
  unfold runSynchronizer
  have hf := sync_foldl gh records.getLast? records ⟨0, 0, [], [], 0⟩
  rw [hf.1]
  simp [Function.comp_def]

/-- C1: for every list of missing records and every collaborator behaviour the
Synchronizer attempts every record (a failure never stops the loop) and each
record is counted exactly once; in the three-record scenario where the second
creation fails, the third is still attempted and succeeds, and the report is
created = 2, failed = 1. -/
theorem claim_C1_partial_failure_isolation :
    (∀ (gh : GhCreate) (missing : List IssueRecord),
      (runSynchronizer gh missing).attempts.map Prod.fst = missing ∧
      (runSynchronizer gh missing).created + (runSynchronizer gh missing).failed =
        missing.length) ∧
    (runSynchronizer ghC1 [recA, recB, recC]).attempts =
      [(recA, some "https://github.com/o/r/issues/1"), (recB, none),
       (recC, some "https://github.com/o/r/issues/3")] ∧
    (runSynchronizer ghC1 [recA, recB, recC]).created = 2 ∧
    (runSynchronizer ghC1 [recA, recB, recC]).failed = 1 := by
  refine ⟨fun gh missing => ?_, by decide, by decide, by decide⟩
  unfold runSynchronizer
  have hf := sync_foldl gh missing.getLast? missing ⟨0, 0, [], [], 0⟩
  constructor
  · rw [hf.1]
    simp [Function.comp_def]
  · rw [hf.2]
    simp

/-- C4: reconciliation tests membership by exact string equality on the title:
a record is missing exactly when its title is not literally a key of the index,
and the record titled `Fix login` with a trailing space is missing against an
index containing only `Fix login`. -/
theorem claim_C4_reconcile_exact :
    (∀ (records : List IssueRecord) (idx : List (String × Nat)) (r : IssueRecord),
      r ∈ (reconcile records idx).2 ↔
        r ∈ records ∧ indexHasTitle idx r.title = false) ∧
    reconcile [recFix, recFixSp] [("Fix login", 7)] = ([(recFix, 7)], [recFixSp]) := by
  constructor
  · intro records idx r
    simp [reconcile, List.mem_filter]
  · decide

/-- C3 counterexample: in the two-block end-to-end scenario the code performs
one creation, reports created = 1 and failed = 0, but sleeps zero times, not
once: the loop sleeps only when the current record differs from the last
element of the batch, and the single missing record is that last element. -/
theorem claim_C3_counterexample :
    (reconcile (parse_issues_file docC3) idxC3).2 = [recMetrics] ∧
    (runSynchronizer ghC3 (reconcile (parse_issues_file docC3) idxC3).2).created = 1 ∧
    (runSynchronizer ghC3 (reconcile (parse_issues_file docC3) idxC3).2).failed = 0 ∧
    ¬ (runSynchronizer ghC3 (reconcile (parse_issues_file docC3) idxC3).2).sleeps = 1 := by
  decide

/-- C3 amended: in the end-to-end scenario reconciliation yields
missing = the `Add metrics` record and present = the `Add retries` record
paired with 42; the Synchronizer issues exactly one creation call, sleeps zero
times (the delay is only inserted between records), and reports created = 1,
failed = 0. -/
theorem claim_C3_end_to_end :
    parse_issues_file docC3 = [recRetries, recMetrics] ∧
    reconcile (parse_issues_file docC3) idxC3 = ([(recRetries, 42)], [recMetrics]) ∧
    (runSynchronizer ghC3 (reconcile (parse_issues_file docC3) idxC3).2).attempts =
      [(recMetrics, some "https://github.com/o/r/issues/43")] ∧
    (runSynchronizer ghC3 (reconcile (parse_issues_file docC3) idxC3).2).created = 1 ∧
    (runSynchronizer ghC3 (reconcile (parse_issues_file docC3) idxC3).2).failed = 0 ∧
    (runSynchronizer ghC3 (reconcile (parse_issues_file docC3) idxC3).2).sleeps = 0 := by
  decide

/-- C5 counterexample: a labels line whose only token is a lone backtick
produces a record whose labels list contains the empty string — the blank
filter runs before decoration stripping. -/
theorem claim_C5_counterexample :
    parse_issues_file docC5 = [⟨1, "T", [""], "", "", ""⟩] := by
  decide

/-- C5 amended: the labels of a labels line are exactly the stripped,
decoration-free forms of the comma tokens that are non-blank after whitespace
trimming (a token of only decoration characters therefore yields the empty
string), and no label ever contains a backtick or quote character. -/
theorem claim_C5_label_parsing :
    ∀ (line : String) (l : String),
      (l ∈ parseLabels line ↔
        ∃ t ∈ splitOnChar ',' (stripChars (pyReplace line.data "**Labels:**" [])),
          stripChars t ≠ [] ∧ l = String.mk (stripDecor (stripChars t))) ∧
      (l ∈ parseLabels line → backtickChar ∉ l.data ∧ quoteChar ∉ l.data) := by
  intro line l
  have hmem : ∀ l2 : String, l2 ∈ parseLabels line ↔
      ∃ t ∈ splitOnChar ',' (stripChars (pyReplace line.data "**Labels:**" [])),
        stripChars t ≠ [] ∧ l2 = String.mk (stripDecor (stripChars t)) := by
    intro l2
    simp only [parseLabels]
    constructor
    · intro hl
      obtain ⟨t, htm, hte⟩ := List.mem_map.mp hl
      obtain ⟨hts, htp⟩ := List.mem_filter.mp htm
      refine ⟨t, hts, ?_, hte.symm⟩
      rcases hx : stripChars t with _ | _ <;> simp [hx] at htp ⊢
    · rintro ⟨t, hts, htne, rfl⟩
      refine List.mem_map.mpr ⟨t, List.mem_filter.mpr ⟨hts, ?_⟩, rfl⟩
      rcases hx : stripChars t with _ | _ <;> simp [hx] at htne ⊢
  refine ⟨hmem l, fun hl => ?_⟩
  obtain ⟨t, hts, htne, hle⟩ := (hmem l).mp hl
  rw [hle]
  simpa using stripDecor_no_decor (stripChars t)

/-- C5 witness: a well-formed labels line, with the decoration-free
conclusion instantiated. -/
theorem claim_C5_witness :
    "enhancement" ∈ parseLabels "**Labels:** `enhancement`\n" ∧
    (backtickChar ∉ "enhancement".data ∧ quoteChar ∉ "enhancement".data) :=
  ⟨by decide,
   (claim_C5_label_parsing "**Labels:** `enhancement`\n" "enhancement").2 (by decide)⟩

/-- C7: every emitted record corresponds to exactly one header line (an open
record is closed by the terminator, the next header, or end-of-document, and
never dropped), and a document whose final block lacks the terminator still
yields that block, whitespace-trimmed, as a record. -/
theorem claim_C7_unterminated_flush :
    (∀ lines : List String, (parse_issues_file lines).length = countHeaders lines) ∧
    parse_issues_file docC7 = [⟨1, "Unterminated", [], "body", "", ""⟩] :=
  ⟨parse_length, by decide⟩

/-- C8: every emitted record has a non-empty title (a record lacking a number
or title can never be constructed), and the returned sequence is sorted by
number in ascending order. -/
theorem claim_C8_wellformed (lines : List String) :
    (∀ r ∈ parse_issues_file lines, r.title ≠ "") ∧
    List.Pairwise (fun a b : IssueRecord => a.number ≤ b.number)
      (parse_issues_file lines) :=
  ⟨parse_titles lines, parse_sorted lines⟩

/-- C8 witness: instantiated on the two-block document. -/
theorem claim_C8_witness :
    recRetries ∈ parse_issues_file docC3 ∧
    recRetries.title ≠ "" ∧
    List.Pairwise (fun a b : IssueRecord => a.number ≤ b.number)
      (parse_issues_file docC3) :=
  ⟨by decide, (claim_C8_wellformed docC3).1 recRetries (by decide),
   (claim_C8_wellformed docC3).2⟩

/-- C2 counterexample: a collaborator whose first creation call fails with a
label-not-found error and whose retry succeeds but prints no URL: the code
retries without labels, yet attaches no label at all although the record has
the label `bug` — the attach loop runs only when a URL is extracted from the
retry output. -/
theorem claim_C2_counterexample :
    collabC2x.create rC2.title (buildBody rC2) (rC2.labels.filter (fun l => l ≠ "")) =
      Except.error "label not found" ∧
    labelNotFoundErr "label not found" = true ∧
    collabC2x.create rC2.title (buildBody rC2) [] = Except.ok "done" ∧
    rC2.labels = ["bug"] ∧
    (create_issue_robust collabC2x rC2).createCalls =
      [(rC2.title, buildBody rC2, ["bug"]), (rC2.title, buildBody rC2, [])] ∧
    (create_issue_robust collabC2x rC2).attachCalls = [] := by
  decide

/-- C2 amended: whenever the first creation call fails with an error text
containing both `label` and `not found` case-insensitively, the robust creator
retries creation exactly once with no labels; if the retry succeeds and an
issue URL is extracted from its output, it attaches each of the record's
non-empty labels individually, any attach failure is swallowed, and the
record is reported as created (a non-empty result). -/
theorem claim_C2_label_fallback (c : Collab) (r : IssueRecord) (e : String)
    (h1 : c.create r.title (buildBody r) (r.labels.filter (fun l => l ≠ "")) =
      Except.error e)
    (h2 : labelNotFoundErr e = true) :
    (create_issue_robust c r).createCalls =
      [(r.title, buildBody r, r.labels.filter (fun l => l ≠ "")),
       (r.title, buildBody r, [])] ∧
    (∀ o2 u : String,
      c.create r.title (buildBody r) [] = Except.ok o2 →
      extractUrl (pyStrip o2) = some u →
      (create_issue_robust c r).attachCalls =
        (r.labels.filter (fun l => l ≠ "")).map (fun l => (u, l, c.addLabel u l)) ∧
      (create_issue_robust c r).result = some u ∧ u ≠ "") := by
  constructor
  · simp only [create_issue_robust, h1, h2, if_true]
    rcases hr : c.create r.title (buildBody r) [] with e2 | o2
    · rfl
    · rcases hu : extractUrl (pyStrip o2) with _ | u
      · simp [hu]
      · simp [hu]
  · intro o2 u h4 h5
    refine ⟨?_, ?_, extractUrl_ne_empty (pyStrip o2) u h5⟩
    · simp only [create_issue_robust, h1, h2, if_true, h4, h5]
    · simp only [create_issue_robust, h1, h2, if_true, h4, h5]

/-- C2 witness: the fallback scenario with the label `bug`, a URL-printing
retry, and a collaborator whose every label-attach call fails (swallowed). -/
theorem claim_C2_witness :
    (create_issue_robust collabC2 rC2).createCalls =
      [(rC2.title, buildBody rC2, rC2.labels.filter (fun l => l ≠ "")),
       (rC2.title, buildBody rC2, [])] ∧
    ((create_issue_robust collabC2 rC2).attachCalls =
      (rC2.labels.filter (fun l => l ≠ "")).map
        (fun l => ("https://github.com/o/r/issues/7", l,
          collabC2.addLabel "https://github.com/o/r/issues/7" l)) ∧
     (create_issue_robust collabC2 rC2).result =
       some "https://github.com/o/r/issues/7" ∧
     "https://github.com/o/r/issues/7" ≠ "") := by
  have main := claim_C2_label_fallback collabC2 rC2
    "could not add label: Label not found" (by decide) (by decide)
  exact ⟨main.1,
    main.2 "https://github.com/o/r/issues/7\n" "https://github.com/o/r/issues/7"
      (by decide) (by decide)⟩

/-- C6: while a section pointer is set, a content line that matches none of
the earlier rules is appended verbatim (trailing newline included) exactly
when it is non-blank; a blank line never changes the state at all; and a
section whose raw body is `a`, blank, `b` is recorded as the string `a`,
newline, `b` after the final trim. -/
theorem claim_C6_blank_line_dropping :
    (∀ (st : ParserState) (line : String) (sec : SectionKind),
      matchHeaderS (stripChars line.data) = none →
      st.inIssue = true →
      labelsMark.isPrefixOf (stripChars line.data) = false →
      stripChars line.data ≠ descMark →
      stripChars line.data ≠ objMark →
      stripChars line.data ≠ accMark →
      stripChars line.data ≠ termMark →
      st.currentSection = some sec →
      stripChars line.data ≠ [] →
      parseStep st line =
        { st with current := st.current.map (appendSection sec line) }) ∧
    (∀ (st : ParserState) (line : String),
      stripChars line.data = [] → parseStep st line = st) ∧
    parse_issues_file docC6 = [⟨1, "T", [], "a\nb", "", ""⟩] := by
  refine ⟨?_, ?_, by decide⟩
  · intro st line sec hh hin hlab hd ho ha ht hsec hnb
    simp [parseStep, hh, hin, hlab, hd, ho, ha, ht, hsec, hnb]
  · intro st line hblank
    have hh : matchHeaderS ([] : List Char) = none := by decide
    rcases hin : st.inIssue
    · simp [parseStep, hblank, hh, hin]
    · rcases hsec : st.currentSection with _ | sec <;>
        simp [parseStep, hblank, hh, hin, hsec, labelsMark, descMark, objMark,
          accMark, termMark]

/-- C6 witness: the step rules instantiated on a concrete open state with a
content line and with a blank line. -/
theorem claim_C6_witness :
    parseStep stC6 "hello\n" =
      { stC6 with current := stC6.current.map (appendSection SectionKind.description "hello\n") } ∧
    parseStep stC6 "\n" = stC6 :=
  ⟨claim_C6_blank_line_dropping.1 stC6 "hello\n" SectionKind.description
      (by decide) (by decide) (by decide) (by decide) (by decide) (by decide)
      (by decide) (by decide) (by decide),
   claim_C6_blank_line_dropping.2.1 stC6 "\n" (by decide)⟩
